import Mathlib

/-!
Verification development for the Projeto-Verx yahoo_crawler repository.

Shallow embedding of the crawl orchestration engine and the cache layer:

* `src/yahoo_crawler/domain/models.py`        → `EquityQuote`
* `src/yahoo_crawler/application/screener_crawler.py` → `crawlLoop`, `crawlRecords`,
  `ScreenerCrawler.crawl`
* `src/yahoo_crawler/infrastructure/yahoo_client.py` (apply_region_filter) → `applyRegionFilter`
* `src/yahoo_crawler/cache/quote_cache.py`    → `QuoteCache.load` / `QuoteCache.save`
* `src/yahoo_crawler/cache/redis_quote_cache.py` → `RedisQuoteCache.load`
* `src/yahoo_crawler/application/crawl_service.py` → `run_crawl_job`, `buildCacheE`

Modelling conventions:
* Python `while True` loops become fuel-indexed recursion returning `Option`;
  `none` means the fuel ran out (used to exhibit genuine non-termination).
* The md5 fingerprint of a page is modelled by the page string itself (md5 is a
  deterministic function of the content and is assumed collision-free on the
  inputs encountered, so keying the parse cache by the content is observably
  identical).
* Wall-clock instants are integers (seconds); a `timedelta(minutes=m)` is `60*m`.
* Browser-side effects are abstracted into explicit inputs (a page source
  `Nat → String × Bool` giving each page's content and its has_next flag) and
  explicit event traces for the job executor.
-/

/-- Whitespace test of Python `str.strip()` (ASCII range; the strings involved
carry no exotic Unicode whitespace). -/
def isPySpace (c : Char) : Bool :=
  c = ' ' || c = '\t' || c = '\n' || c = '\r' || c = Char.ofNat 11 || c = Char.ofNat 12

/-- Python `str.strip()`: drop leading and trailing whitespace. -/
def pyStrip (s : String) : String :=
  String.mk ((s.data.dropWhile isPySpace).reverse.dropWhile isPySpace |>.reverse)

/-- Python `str.lower()` (ASCII case mapping; region and backend names in this
program are ASCII). -/
def pyLower (s : String) : String :=
  String.mk (s.data.map Char.toLower)

/-- Decidable equality for `Except`, used to evaluate the embeddings of
fallible Python functions on concrete inputs. -/
instance {ε α : Type} [DecidableEq ε] [DecidableEq α] : DecidableEq (Except ε α) :=
  fun a b =>
    match a, b with
    | Except.error e, Except.error e' =>
      if h : e = e' then Decidable.isTrue (by rw [h]) else
        Decidable.isFalse (by intro hc; cases hc; exact h rfl)
    | Except.error _, Except.ok _ => Decidable.isFalse (by intro hc; cases hc)
    | Except.ok _, Except.error _ => Decidable.isFalse (by intro hc; cases hc)
    | Except.ok v, Except.ok v' =>
      if h : v = v' then Decidable.isTrue (by rw [h]) else
        Decidable.isFalse (by intro hc; cases hc; exact h rfl)

/-- Record type from `domain/models.py` (`EquityQuote` frozen dataclass). -/
structure EquityQuote where
  symbol : String
  name : String
  price : String
deriving DecidableEq, Repr

/-- First-match association lookup, the behaviour of a Python dict keyed by
strings given that insertion only ever adds fresh keys. -/
def assocLookup {β : Type} : List (String × β) → String → Option β
  | [], _ => none
  | (k, v) :: rest, s => if k = s then some v else assocLookup rest s

/-- One merge step of `ScreenerCrawler.crawl`:
`if quote.symbol not in by_symbol: by_symbol[quote.symbol] = quote`
(insertion-ordered, first occurrence wins). -/
def insertIfAbsent (m : List (String × EquityQuote)) (q : EquityQuote) :
    List (String × EquityQuote) :=
  match assocLookup m q.symbol with
  | some _ => m
  | none => m ++ [(q.symbol, q)]

/-- Signature of a page: ordered symbols of the first 3 parsed records
(`tuple(quote.symbol for quote in quotes[:3])`). -/
def pageSignature (quotes : List EquityQuote) : List String :=
  (quotes.take 3).map (fun q => q.symbol)

/-- Loop guard condition of `ScreenerCrawler.crawl`:
`if current_signature and current_signature == last_signature and has_next_page`. -/
def loopGuardFires (currentSignature : List String)
    (lastSignature : Option (List String)) (hasNext : Bool) : Bool :=
  (!currentSignature.isEmpty) && (lastSignature == some currentSignature) && hasNext

/-- Page-limit condition of `ScreenerCrawler.crawl`:
`if max_pages is not None and page_number >= max_pages`. -/
def maxPagesReached (maxPages : Option Int) (pageNumber : Nat) : Bool :=
  match maxPages with
  | some m => decide (m ≤ (pageNumber : Int))
  | none => false

/-- Mutable session state of one `crawl` call (spec §3 "Crawl Session State"),
plus two instrumentation fields that record externally observable effects:
`goNextCalls` counts `go_to_next_page` invocations and `seen` records every
parsed quote the merge loop iterated over, in page order. -/
structure CrawlState where
  bySymbol : List (String × EquityQuote)
  parsedPagesCache : List (String × List EquityQuote)
  pageNumber : Nat
  lastSignature : Option (List String)
  goNextCalls : Nat
  seen : List EquityQuote
deriving DecidableEq, Repr

/-- State at entry of the `while True` loop of `ScreenerCrawler.crawl`. -/
def initState : CrawlState :=
  { bySymbol := [], parsedPagesCache := [], pageNumber := 1,
    lastSignature := none, goNextCalls := 0, seen := [] }

/-- Content of the currently displayed page,
`page_html = self._client.get_current_page_html()`. -/
def curHtml (source : Nat → String × Bool) (st : CrawlState) : String :=
  (source (st.pageNumber - 1)).1

/-- Answer of `self._client.has_next_page()` on the current page. -/
def curNext (source : Nat → String × Bool) (st : CrawlState) : Bool :=
  (source (st.pageNumber - 1)).2

/-- Quotes of the current page:
`quotes = parsed_pages_cache.get(page_key)`, falling back to
`self._parser.parse_quotes(page_html)` on a cache miss. -/
def curQuotes (parse : String → List EquityQuote) (source : Nat → String × Bool)
    (st : CrawlState) : List EquityQuote :=
  (assocLookup st.parsedPagesCache (curHtml source st)).getD (parse (curHtml source st))

/-- Parse cache after the current iteration:
`if quotes is None: parsed_pages_cache[page_key] = quotes`. -/
def nextParsedCache (parse : String → List EquityQuote) (source : Nat → String × Bool)
    (st : CrawlState) : List (String × List EquityQuote) :=
  match assocLookup st.parsedPagesCache (curHtml source st) with
  | some _ => st.parsedPagesCache
  | none => st.parsedPagesCache ++ [(curHtml source st, parse (curHtml source st))]

/-- Accumulator after the merge loop over the current page's quotes. -/
def mergedBySymbol (parse : String → List EquityQuote) (source : Nat → String × Bool)
    (st : CrawlState) : List (String × EquityQuote) :=
  (curQuotes parse source st).foldl insertIfAbsent st.bySymbol

/-- State at the loop-guard `break`: the accumulator, parse cache and seen
stream reflect the current page, `last_signature` is NOT reassigned (the
`break` precedes the assignment). -/
def guardBreakState (parse : String → List EquityQuote) (source : Nat → String × Bool)
    (st : CrawlState) : CrawlState :=
  { st with bySymbol := mergedBySymbol parse source st,
            parsedPagesCache := nextParsedCache parse source st,
            seen := st.seen ++ curQuotes parse source st }

/-- State at the `max_pages` or `has_next` `break`: like the guard break but
after `last_signature = current_signature`. -/
def pageBreakState (parse : String → List EquityQuote) (source : Nat → String × Bool)
    (st : CrawlState) : CrawlState :=
  { st with bySymbol := mergedBySymbol parse source st,
            parsedPagesCache := nextParsedCache parse source st,
            lastSignature := some (pageSignature (curQuotes parse source st)),
            seen := st.seen ++ curQuotes parse source st }

/-- State after `self._client.go_to_next_page(); page_number += 1`. -/
def advanceState (parse : String → List EquityQuote) (source : Nat → String × Bool)
    (st : CrawlState) : CrawlState :=
  { bySymbol := mergedBySymbol parse source st,
    parsedPagesCache := nextParsedCache parse source st,
    pageNumber := st.pageNumber + 1,
    lastSignature := some (pageSignature (curQuotes parse source st)),
    goNextCalls := st.goNextCalls + 1,
    seen := st.seen ++ curQuotes parse source st }

/-- The `while True` loop of `ScreenerCrawler.crawl`, fuel-indexed.
`parse` is the pure page parser (`ScreenerParser.parse_quotes`), `source i`
gives page `i`'s content and the `has_next_page()` answer while that page is
displayed; `source (st.pageNumber - 1)` is the currently displayed page.
The three `if`s mirror the loop-guard check, the `max_pages` check and the
`has_next` check, in source order.  Returns `none` when the fuel is exhausted
before the loop breaks. -/
def crawlLoop (parse : String → List EquityQuote) (source : Nat → String × Bool)
    (maxPages : Option Int) : Nat → CrawlState → Option CrawlState
  | 0, _ => none
  | fuel + 1, st =>
    if loopGuardFires (pageSignature (curQuotes parse source st)) st.lastSignature
        (curNext source st) then
      some (guardBreakState parse source st)
    else if maxPagesReached maxPages st.pageNumber then
      some (pageBreakState parse source st)
    else if curNext source st = false then
      some (pageBreakState parse source st)
    else
      crawlLoop parse source maxPages fuel (advanceState parse source st)

/-- Lexicographic comparison of char lists by code point — the comparison
Python's `sorted` performs on strings. -/
def charListLe : List Char → List Char → Bool
  | [], _ => true
  | _ :: _, [] => false
  | a :: as, b :: bs =>
    if a.toNat < b.toNat then true
    else if b.toNat < a.toNat then false
    else charListLe as bs

/-- Python string order `a <= b` (code-point lexicographic). -/
def pyStrLe (a b : String) : Bool :=
  charListLe a.data b.data

/-- Python string order `a < b`. -/
def pyStrLt (a b : String) : Bool :=
  pyStrLe a b && !(a == b)

/-- Final line of `ScreenerCrawler.crawl`:
`return [by_symbol[symbol] for symbol in sorted(by_symbol)]`. -/
def crawlRecords (m : List (String × EquityQuote)) : List EquityQuote :=
  (List.insertionSort (fun a b => pyStrLe a b = true) (m.map Prod.fst)).filterMap
    (assocLookup m)

/-- Non-termination of the crawl loop in the fuel model: every fuel amount is
exhausted. -/
def crawlLoopDiverges (parse : String → List EquityQuote)
    (source : Nat → String × Bool) (maxPages : Option Int) : Prop :=
  ∀ fuel, crawlLoop parse source maxPages fuel initState = none

/-! ### Region filter (yahoo_client.py `apply_region_filter`) and full `crawl`

`apply_region_filter` interacts with the browser; its failure modes are
abstracted into a `FilterEnv` of boolean outcomes for each UI wait.  The
crucial structural facts kept from the source: the empty-region `ValueError`,
menu/checkbox/button failures raising out of the method, and the final
`_wait_for_table_update` being wrapped in `try/except TimeoutException`
(only that failure is downgraded to a warning). -/

/-- Outcomes of the browser interactions performed by
`YahooFinanceClient.apply_region_filter`. -/
structure FilterEnv where
  menuOpens : Bool
  regionFound : Bool
  buttonTextUpdates : Bool
  tableSettles : Bool
deriving DecidableEq, Repr

/-- Embedding of `YahooFinanceClient.apply_region_filter`.  Every failure
except the final settle wait propagates as an error; the settle-wait timeout
is caught (`except TimeoutException: LOGGER.warning(...)`) so the call
succeeds regardless of `env.tableSettles`. -/
def applyRegionFilter (env : FilterEnv) (region : String) : Except String Unit :=
  if pyStrip region = "" then Except.error "region cannot be empty."
  else if env.menuOpens = false then Except.error "Timeout opening region menu"
  else if env.regionFound = false then Except.error "Region not found"
  else if env.buttonTextUpdates = false then
    Except.error "Timeout waiting for region button text"
  else Except.ok ()

namespace ScreenerCrawler

/-- Embedding of `ScreenerCrawler.crawl`: `load_page()` (assumed to succeed),
then `apply_region_filter(region)` with no surrounding try/except — its
errors propagate out of `crawl` — then the pagination loop and the final
sort-by-symbol projection. -/
def crawl (env : FilterEnv) (region : String) (parse : String → List EquityQuote)
    (source : Nat → String × Bool) (maxPages : Option Int) (fuel : Nat) :
    Except String (Option (List EquityQuote)) :=
  match applyRegionFilter env region with
  | Except.error e => Except.error e
  | Except.ok _ =>
      Except.ok ((crawlLoop parse source maxPages fuel initState).map
        (fun st => crawlRecords st.bySymbol))

end ScreenerCrawler

/-! ### Cache layer (`quote_cache.py`, `redis_quote_cache.py`)

The stored value for a region is modelled by `StoredPayload`.  Only the file
read together with `json.loads` is inside `load`'s `try` block (and, for the
remote backend, the `redis` `get`): a payload on which `json.loads` raises is
`malformed` and is downgraded to a logged warning plus an absent answer.  The
later shape accesses are NOT guarded, so `load` can raise:

* `nonObject` — valid JSON that is not an object: `payload.get("version")`
  raises `AttributeError` before anything else is looked at;
* `TimestampRaw.nonString` — a truthy non-string `created_at`:
  `datetime.fromisoformat` raises `TypeError`, which the surrounding
  `except ValueError` does not catch;
* `RecordsField.badShape` — a truthy `records` value that is not a list of
  dicts (or any other iterable of dicts): the `for record in records` loop or
  `record.get` raises `TypeError`/`AttributeError`, reached only when the
  snapshot is fresh.

`version` is `some v` when the stored value compares equal to the integer `v`
under Python `==` (ints, bools, equal floats) and `none` for anything else —
the code only tests `!= 1`.  `TimestampRaw.missing` covers an absent key and
every falsy value (`if not created_at_raw`); `unparseable` is a truthy string
`fromisoformat` rejects (`ValueError`, caught).  `RecordsField.rows` covers a
list of dicts and also an absent key or empty container (zero iterations).
Timestamps are integers in seconds. -/

/-- Stored `created_at` field as seen by `load`. -/
inductive TimestampRaw where
  | missing
  | unparseable (raw : String)
  | nonString
  | parsed (t : Int)
deriving DecidableEq, Repr

/-- Stored record dict after the `str(...)` coercions of `load`. -/
structure RawRecord where
  symbol : String
  name : String
  price : String
deriving DecidableEq, Repr

/-- Stored `records` field as seen by `load`'s re-hydration loop. -/
inductive RecordsField where
  | rows (records : List RawRecord)
  | badShape
deriving DecidableEq, Repr

/-- Stored cache value for one region. -/
inductive StoredPayload where
  | malformed
  | nonObject
  | valid (version : Option Int) (created_at : TimestampRaw) (records : RecordsField)
deriving DecidableEq, Repr

/-- Character class `[a-z0-9]` used by `_normalize_region`'s regex. -/
def isLowerAlnum (c : Char) : Bool :=
  (('a' ≤ c && c ≤ 'z') || ('0' ≤ c && c ≤ '9'))

/-- Replace every maximal run of characters outside `[a-z0-9]` by a single
underscore (`re.sub(r"[^a-z0-9]+", "_", s)`); the flag records whether the
previous character was part of such a run. -/
def subNonAlnum : Bool → List Char → List Char
  | _, [] => []
  | inRun, c :: rest =>
    if isLowerAlnum c then c :: subNonAlnum false rest
    else if inRun then subNonAlnum true rest
    else '_' :: subNonAlnum true rest

/-- Embedding of `_normalize_region` (identical in both cache backends):
lower-case and trim, collapse non-alphanumeric runs to `_`, strip leading and
trailing underscores, fall back to the sentinel key. -/
def normalizeRegion (region : String) : String :=
  let lowered := pyLower (pyStrip region)
  let subbed := subNonAlnum false lowered.data
  let stripped := (subbed.dropWhile (fun c => c = '_')).reverse.dropWhile
    (fun c => c = '_') |>.reverse
  if stripped.isEmpty then "unknown_region" else String.mk stripped

/-- Record re-hydration loop shared by both `load` implementations: coerce and
strip the three fields, skip rows whose symbol or name strips to empty. -/
def parseStoredRecords (records : List RawRecord) : List EquityQuote :=
  records.filterMap (fun r =>
    let symbol := pyStrip r.symbol
    let name := pyStrip r.name
    let price := pyStrip r.price
    if symbol = "" ∨ name = "" then none
    else some { symbol := symbol, name := name, price := price })

namespace QuoteCache

/-- Embedding of `QuoteCache.load`.  The filesystem is `store`, mapping the
normalized region key (the file `<key>.json`) to its payload; `now` is the
current UTC instant in seconds.  Absent file, malformed JSON (warning
logged), version mismatch, missing/falsy or unparseable-string timestamp and
stale age all yield `Except.ok none`; a well-shaped fresh snapshot yields its
re-hydrated records; the unguarded shape accesses raise (`Except.error`) in
source order: the version access on a non-object payload, `fromisoformat` on
a truthy non-string timestamp (only when the version matched), and the
record loop on a bad-shaped `records` value (only when the snapshot is
fresh). -/
def load (store : String → Option StoredPayload) (now : Int) (region : String)
    (ttl_minutes : Int) : Except String (Option (List EquityQuote)) :=
  match store (normalizeRegion region) with
  | none => Except.ok none
  | some StoredPayload.malformed => Except.ok none
  | some StoredPayload.nonObject =>
    Except.error "AttributeError: payload has no attribute get"
  | some (StoredPayload.valid version created_at records) =>
    if version ≠ some 1 then Except.ok none
    else
      match created_at with
      | TimestampRaw.missing => Except.ok none
      | TimestampRaw.unparseable _ => Except.ok none
      | TimestampRaw.nonString =>
        Except.error "TypeError: fromisoformat argument must be str"
      | TimestampRaw.parsed t =>
        if now - t > 60 * max ttl_minutes 0 then Except.ok none
        else
          match records with
          | RecordsField.badShape =>
            Except.error "TypeError: records is not a list of dicts"
          | RecordsField.rows rs => Except.ok (some (parseStoredRecords rs))

/-- Embedding of `QuoteCache.save`: write a version-1 payload with
`created_at = now` and the `asdict` image of the records at the normalized
region key, leaving every other key unchanged.  Returns the updated store
(the Python return value is the file path, `<cache_dir>/<key>.json`). -/
def save (store : String → Option StoredPayload) (now : Int) (region : String)
    (records : List EquityQuote) : String → Option StoredPayload :=
  fun k =>
    if k = normalizeRegion region then
      some (StoredPayload.valid (some 1) (TimestampRaw.parsed now)
        (RecordsField.rows (records.map (fun q =>
          { symbol := q.symbol, name := q.name, price := q.price }))))
    else store k

end QuoteCache

/-- Result of `redis_client.get(key)` in `RedisQuoteCache.load`: a raised
`RedisError`, a falsy reply (`None` or the empty string — `if not
payload_raw`), or a string value holding a payload. -/
inductive RedisReply where
  | backendError
  | noValue
  | value (payload : StoredPayload)
deriving DecidableEq, Repr

/-- Python `str.rstrip(":")`: drop every trailing colon. -/
def rstripColons (s : String) : String :=
  String.mk (s.data.reverse.dropWhile (fun c => c = ':') |>.reverse)

namespace RedisQuoteCache

/-- Key derivation of `RedisQuoteCache`: `__init__` normalizes the prefix
(`key_prefix.rstrip(":") or "yahoo_crawler:quotes"`), `_cache_key` appends
the normalized region. -/
def cacheKey (key_pfx : String) (region : String) : String :=
  let normalizedPfx :=
    if rstripColons key_pfx = "" then "yahoo_crawler:quotes" else rstripColons key_pfx
  normalizedPfx ++ ":" ++ normalizeRegion region

/-- Embedding of `RedisQuoteCache.load`.  `store` is the remote keyspace
answering `get`; a `RedisError` and a falsy reply both yield `Except.ok none`
(warning logged), then the same payload handling as the local backend,
including the unguarded shape accesses that raise out of `load`. -/
def load (key_pfx : String) (store : String → RedisReply) (now : Int)
    (region : String) (ttl_minutes : Int) : Except String (Option (List EquityQuote)) :=
  match store (cacheKey key_pfx region) with
  | RedisReply.backendError => Except.ok none
  | RedisReply.noValue => Except.ok none
  | RedisReply.value StoredPayload.malformed => Except.ok none
  | RedisReply.value StoredPayload.nonObject =>
    Except.error "AttributeError: payload has no attribute get"
  | RedisReply.value (StoredPayload.valid version created_at records) =>
    if version ≠ some 1 then Except.ok none
    else
      match created_at with
      | TimestampRaw.missing => Except.ok none
      | TimestampRaw.unparseable _ => Except.ok none
      | TimestampRaw.nonString =>
        Except.error "TypeError: fromisoformat argument must be str"
      | TimestampRaw.parsed t =>
        if now - t > 60 * max ttl_minutes 0 then Except.ok none
        else
          match records with
          | RecordsField.badShape =>
            Except.error "TypeError: records is not a list of dicts"
          | RecordsField.rows rs => Except.ok (some (parseStoredRecords rs))

end RedisQuoteCache

/-! ### Job executor (`crawl_service.py`)

`run_crawl_job` is embedded with an explicit event trace so that frame
conditions ("no Page Source is constructed", "nothing is built before the
failure") are stated about the trace.  External behaviour (what the caches
answer, what the crawler returns) is a `JobEnv`.

One fact of the source cannot be swept into the data flow: `run_crawl_job`
constructs `CrawlerConfig(timeout_seconds=…, headless=…, cache_enabled=…,
cache_backend=…, cache_dir=…, cache_ttl_minutes=…, redis_url=…,
redis_key_prefix=…)`, but the `CrawlerConfig` dataclass in `config.py` has no
`cache_backend` or `cache_dir` field, so in Python this call raises
`TypeError` before anything else happens.  The field list of `config.py` and
the keyword list of `crawl_service.py` are recorded verbatim below and the
construction is modelled as the subset check a dataclass performs;
`runCrawlJobBody` is the remainder of the function, which is what the
repository's own tests describe. -/

/-- Field names of the `CrawlerConfig` dataclass in `config.py`. -/
def crawlerConfigFields : List String :=
  ["base_url", "timeout_seconds", "headless", "page_load_timeout_seconds",
   "cache_enabled", "cache_ttl_minutes", "redis_url", "redis_key_prefix"]

/-- Keyword arguments passed to `CrawlerConfig(...)` by `run_crawl_job`. -/
def runCrawlJobConfigKwargs : List String :=
  ["timeout_seconds", "headless", "cache_enabled", "cache_backend",
   "cache_dir", "cache_ttl_minutes", "redis_url", "redis_key_prefix"]

/-- Parameter record of `run_crawl_job` (`CrawlExecutionParams` dataclass).
`redis_key_pfx` embeds the source field `redis_key_prefix`. -/
structure CrawlExecutionParams where
  region : String
  out : String := "output/equities.csv"
  max_pages : Option Int := none
  timeout_seconds : Int := 45
  headless : Bool := true
  log_level : String := "INFO"
  use_cache : Bool := false
  cache_backend : String := "local"
  cache_dir : String := ".cache/yahoo_crawler"
  cache_ttl_minutes : Int := 30
  redis_url : String := "redis://localhost:6379/0"
  redis_key_pfx : String := "yahoo_crawler:quotes"
deriving DecidableEq, Repr

/-- Result record of `run_crawl_job` (`CrawlExecutionResult` dataclass). -/
structure CrawlExecutionResult where
  output_path : String
  total_records : Nat
  source : String
deriving DecidableEq, Repr

/-- Which cache implementation `_build_cache` returned. -/
inductive CacheKind where
  | localKind
  | redisKind
deriving DecidableEq, Repr

/-- Externally observable actions of one `run_crawl_job` call, in order. -/
inductive JobEvent where
  | builtLocalCache (dir : String)
  | builtRedisCache (url : String) (pfx : String)
  | cacheLoad (kind : CacheKind) (region : String) (ttl : Int)
  | builtDriver
  | builtClient
  | crawlRun (region : String) (maxPages : Option Int)
  | cacheSave (kind : CacheKind) (region : String) (records : List EquityQuote)
  | csvWrite (path : String) (records : List EquityQuote)
  | clientClose
deriving DecidableEq, Repr

/-- External collaborators of `run_crawl_job`: what `cache.load` answers for a
region/ttl, and the outcome of `crawler.crawl` (an exception or a record
list). -/
structure JobEnv where
  cacheLoad : CacheKind → String → Int → Option (List EquityQuote)
  crawlOutcome : Except String (List EquityQuote)

/-- Backend-name normalization at the top of `run_crawl_job`:
`params.cache_backend.strip().lower() or "local"`. -/
def normalizeBackend (s : String) : String :=
  let b := pyLower (pyStrip s)
  if b = "" then "local" else b

/-- Embedding of `_build_cache`: caching disabled short-circuits to a local
`QuoteCache` with no backend validation; otherwise `"redis"` and `"local"`
select a backend and anything else raises `ValueError`.  The returned event
records the constructor that ran. -/
def buildCacheE (cache_enabled : Bool) (cache_backend : String)
    (cache_dir : String) (redis_url : String) (redis_key_pfx : String) :
    Except String (CacheKind × JobEvent) :=
  if cache_enabled = false then
    Except.ok (CacheKind.localKind, JobEvent.builtLocalCache cache_dir)
  else if cache_backend = "redis" then
    Except.ok (CacheKind.redisKind, JobEvent.builtRedisCache redis_url redis_key_pfx)
  else if cache_backend = "local" then
    Except.ok (CacheKind.localKind, JobEvent.builtLocalCache cache_dir)
  else
    Except.error ("cache_backend invalido: '" ++ cache_backend ++ "'. Use 'local' ou 'redis'.")

/-- Live branch of `run_crawl_job` (everything from `WebDriverFactory` on):
build the driver and the client (the Page Source), run `crawl`, on success
optionally `cache.save` then `CsvWriter.write`, and `finally: client.close()`. -/
def runLive (params : CrawlExecutionParams) (env : JobEnv) (kind : CacheKind)
    (preEvents : List JobEvent) :
    Except String CrawlExecutionResult × List JobEvent :=
  let entered := preEvents ++ [JobEvent.builtDriver, JobEvent.builtClient,
    JobEvent.crawlRun params.region params.max_pages]
  match env.crawlOutcome with
  | Except.error e => (Except.error e, entered ++ [JobEvent.clientClose])
  | Except.ok records =>
    let saveEvents :=
      if params.use_cache then [JobEvent.cacheSave kind params.region records] else []
    (Except.ok { output_path := params.out, total_records := records.length,
                 source := "live" },
     entered ++ saveEvents ++ [JobEvent.csvWrite params.out records, JobEvent.clientClose])

/-- Body of `run_crawl_job` after the `CrawlerConfig` construction: build the
cache, consult it when caching is enabled (fresh hit → write CSV and return
`source="cache"` with no Page Source event), otherwise fall through to the
live branch. -/
def runCrawlJobBody (params : CrawlExecutionParams) (env : JobEnv) :
    Except String CrawlExecutionResult × List JobEvent :=
  let backend := normalizeBackend params.cache_backend
  match buildCacheE params.use_cache backend params.cache_dir params.redis_url
      params.redis_key_pfx with
  | Except.error e => (Except.error e, [])
  | Except.ok (kind, buildEvent) =>
    if params.use_cache then
      match env.cacheLoad kind params.region params.cache_ttl_minutes with
      | some records =>
        (Except.ok { output_path := params.out, total_records := records.length,
                     source := "cache" },
         [buildEvent, JobEvent.cacheLoad kind params.region params.cache_ttl_minutes,
          JobEvent.csvWrite params.out records])
      | none =>
        runLive params env kind
          [buildEvent, JobEvent.cacheLoad kind params.region params.cache_ttl_minutes]
    else
      runLive params env kind [buildEvent]

/-- Embedding of `run_crawl_job`.  `configure_logging` (excluded collaborator)
has no modelled effect.  The `CrawlerConfig(...)` construction is the
dataclass keyword check against `config.py`'s field list: an unknown keyword
raises `TypeError` before any cache or crawl work. -/
def run_crawl_job (params : CrawlExecutionParams) (env : JobEnv) :
    Except String CrawlExecutionResult × List JobEvent :=
  if runCrawlJobConfigKwargs.all (fun k => crawlerConfigFields.contains k) then
    runCrawlJobBody params env
  else
    (Except.error "TypeError: CrawlerConfig() got an unexpected keyword argument", [])

/-! ### Specification predicates -/

/-- Output contract of one terminated crawl: symbols strictly ascending in
Python string order (hence unique), every returned record is the first
occurrence of its symbol in the stream of parsed quotes the loop iterated
over, and every symbol that ever appeared is represented. -/
def CrawlOutputInv (st : CrawlState) : Prop :=
  List.Pairwise (fun a b => pyStrLt a b = true)
    ((crawlRecords st.bySymbol).map (fun q => q.symbol))
  ∧ (∀ q ∈ crawlRecords st.bySymbol,
      st.seen.find? (fun r => r.symbol == q.symbol) = some q)
  ∧ (∀ r ∈ st.seen, ∃ q ∈ crawlRecords st.bySymbol, q.symbol = r.symbol)

/-- Invariant tying the accumulator `by_symbol` to the stream `seen` of all
quotes the merge loop has iterated over: keys are unique, each entry is
stored under its record's symbol, and looking a symbol up yields exactly the
first record of the stream with that symbol. -/
structure MapInv (m : List (String × EquityQuote)) (seen : List EquityQuote) : Prop where
  nodupKeys : (m.map Prod.fst).Nodup
  keysMatch : ∀ p ∈ m, p.2.symbol = p.1
  lookupEq : ∀ s, assocLookup m s = seen.find? (fun r => r.symbol == s)

/-- Signature of page `i` of a source, as the loop would compute it. -/
def sigAt (parse : String → List EquityQuote) (source : Nat → String × Bool)
    (i : Nat) : List String :=
  pageSignature (parse (source i).1)

/-- Concatenated parsed quotes of the first `n` pages, in page order. -/
def pagesConcat (parse : String → List EquityQuote) (source : Nat → String × Bool) :
    Nat → List EquityQuote
  | 0 => []
  | n + 1 => pagesConcat parse source n ++ parse (source n).1

/-- Conditions under which `QuoteCache.load` answers absent (the amended
freshness condition clamps the TTL at zero): no file, a payload `json.loads`
rejects, a version other than 1, a missing/falsy or unparseable-string
timestamp, or a stale snapshot — never on a path where a shape access raises
first. -/
def quoteCacheMissCond (store : String → Option StoredPayload) (now : Int)
    (region : String) (ttl_minutes : Int) : Prop :=
  match store (normalizeRegion region) with
  | none => True
  | some StoredPayload.malformed => True
  | some StoredPayload.nonObject => False
  | some (StoredPayload.valid version created_at _) =>
    version ≠ some 1 ∨
      match created_at with
      | TimestampRaw.missing => True
      | TimestampRaw.unparseable _ => True
      | TimestampRaw.nonString => False
      | TimestampRaw.parsed t => now - t > 60 * max ttl_minutes 0

/-- Conditions under which `QuoteCache.load` raises: a valid-JSON non-object
payload (version access), a truthy non-string timestamp once the version
matched (`fromisoformat`), or a bad-shaped records value once the snapshot
proved fresh (record loop). -/
def quoteCacheRaisesCond (store : String → Option StoredPayload) (now : Int)
    (region : String) (ttl_minutes : Int) : Prop :=
  match store (normalizeRegion region) with
  | some StoredPayload.nonObject => True
  | some (StoredPayload.valid version created_at records) =>
    version = some 1 ∧
      match created_at with
      | TimestampRaw.nonString => True
      | TimestampRaw.parsed t =>
        ¬ (now - t > 60 * max ttl_minutes 0) ∧ records = RecordsField.badShape
      | _ => False
  | _ => False

/-- Conditions under which `RedisQuoteCache.load` answers absent: backend
error or empty reply, then the same payload conditions as the local
backend. -/
def redisCacheMissCond (key_pfx : String) (store : String → RedisReply)
    (now : Int) (region : String) (ttl_minutes : Int) : Prop :=
  match store (RedisQuoteCache.cacheKey key_pfx region) with
  | RedisReply.backendError => True
  | RedisReply.noValue => True
  | RedisReply.value StoredPayload.malformed => True
  | RedisReply.value StoredPayload.nonObject => False
  | RedisReply.value (StoredPayload.valid version created_at _) =>
    version ≠ some 1 ∨
      match created_at with
      | TimestampRaw.missing => True
      | TimestampRaw.unparseable _ => True
      | TimestampRaw.nonString => False
      | TimestampRaw.parsed t => now - t > 60 * max ttl_minutes 0

/-- Conditions under which `RedisQuoteCache.load` raises: the same shape
failures as the local backend. -/
def redisCacheRaisesCond (key_pfx : String) (store : String → RedisReply)
    (now : Int) (region : String) (ttl_minutes : Int) : Prop :=
  match store (RedisQuoteCache.cacheKey key_pfx region) with
  | RedisReply.value StoredPayload.nonObject => True
  | RedisReply.value (StoredPayload.valid version created_at records) =>
    version = some 1 ∧
      match created_at with
      | TimestampRaw.nonString => True
      | TimestampRaw.parsed t =>
        ¬ (now - t > 60 * max ttl_minutes 0) ∧ records = RecordsField.badShape
      | _ => False
  | _ => False

/-- Strip-stable record with required fields non-empty: its three fields
survive the `str(...).strip()` round trip of the cache unchanged. -/
def StripStable (q : EquityQuote) : Prop :=
  pyStrip q.symbol = q.symbol ∧ pyStrip q.name = q.name ∧ pyStrip q.price = q.price
  ∧ q.symbol ≠ "" ∧ q.name ≠ ""

/-! ### Concrete inputs for witnesses and counterexamples -/

/-- Sample records used by concrete scenarios below. -/
def wQ1 : EquityQuote := ⟨"AAA.BA", "Alpha Corp", "10.00"⟩

def wQ2 : EquityQuote := ⟨"BBB.BA", "Beta Corp", "20.00"⟩

def wQ3 : EquityQuote := ⟨"CCC.BA", "Gamma Corp", "30.00"⟩

def wQ4 : EquityQuote := ⟨"DDD.BA", "Delta Corp", "40.00"⟩

def wQX : EquityQuote := ⟨"XXX.BA", "Xi Corp", "1.00"⟩

def wQY : EquityQuote := ⟨"YYY.BA", "Ypsilon Corp", "2.00"⟩

def wAmx : EquityQuote := ⟨"AMX.BA", "America Movil, S.A.B. de C.V.", "2089.00"⟩

/-- Parser that finds no rows on any page. -/
def emptyParse : String → List EquityQuote := fun _ => []

/-- Source that serves one fixed page forever and always reports a next page. -/
def repeatTrueSource : Nat → String × Bool := fun _ => ("page", true)

/-- One-page source for the C1 witness. -/
def c1Parse : String → List EquityQuote := fun _ => [wQ2, wQ1]

/-- Source whose single page reports no next page. -/
def c1Source : Nat → String × Bool := fun _ => ("page", false)

/-- Final crawl state on `c1Parse`/`c1Source` (computed by the loop). -/
def c1FinalState : CrawlState :=
  { bySymbol := [("BBB.BA", wQ2), ("AAA.BA", wQ1)],
    parsedPagesCache := [("page", [wQ2, wQ1])],
    pageNumber := 1, lastSignature := some ["BBB.BA", "AAA.BA"],
    goNextCalls := 0, seen := [wQ2, wQ1] }

/-- Page content for the C2/C3 witnesses: two records, repeated forever. -/
def c2Parse : String → List EquityQuote := fun _ => [wQ2, wQ1]

/-- Three pairwise-distinct pages that share their first-3-symbol signature
(pages A and B differ only in the fourth row); every page reports has_next. -/
def c4Parse : String → List EquityQuote := fun h =>
  if h = "pageA" then [wQ1, wQ2, wQ3, wQX]
  else if h = "pageB" then [wQ1, wQ2, wQ3, wQY]
  else [wQ4]

/-- Source serving pageA, pageB, pageC in order (then pageC forever). -/
def c4Source : Nat → String × Bool :=
  fun i => (if i = 0 then "pageA" else if i = 1 then "pageB" else "pageC", true)

/-- Pages with pairwise distinct signatures for the amended C4 witness. -/
def c4WitnessParse : String → List EquityQuote := fun h =>
  if h = "pageA" then [wQ2] else if h = "pageB" then [wQ3] else [wQ1]

/-- Source for the amended C4 witness. -/
def c4WitnessSource : Nat → String × Bool :=
  fun i => (if i = 0 then "pageA" else if i = 1 then "pageB" else "pageC", true)

/-- Execution parameters of the repository's own cache-hit test
(`test_run_crawl_job_uses_cache_without_selenium`). -/
def c5Params : CrawlExecutionParams :=
  { region := "Argentina", out := "result.csv", use_cache := true,
    cache_ttl_minutes := 30 }

/-- Environment with a fresh cached snapshot for every region. -/
def c5Env : JobEnv :=
  { cacheLoad := fun _ _ _ => some [wAmx], crawlOutcome := Except.ok [] }

/-- Parameters of the repository's invalid-backend test
(`test_run_crawl_job_rejects_invalid_cache_backend`). -/
def c6Params : CrawlExecutionParams :=
  { region := "Argentina", out := "result.csv", use_cache := true,
    cache_backend := "invalid" }

/-- Same invalid backend name but with caching disabled. -/
def c6ParamsNoCache : CrawlExecutionParams :=
  { region := "Argentina", out := "result.csv", use_cache := false,
    cache_backend := "invalid" }

/-- Environment for the C6 scenarios: cache always misses, crawl succeeds. -/
def c6Env : JobEnv :=
  { cacheLoad := fun _ _ _ => none, crawlOutcome := Except.ok [wQ1] }

/-- Store holding a well-shaped version-1 snapshot created at instant 0 under
key "argentina". -/
def c7Store : String → Option StoredPayload := fun k =>
  if k = "argentina" then
    some (StoredPayload.valid (some 1) (TimestampRaw.parsed 0)
      (RecordsField.rows [⟨"AAA.BA", "Alpha Corp", "10.00"⟩]))
  else none

/-- Store whose entry is valid JSON but not an object (for example a JSON
list), on which `load`'s version access raises. -/
def c7BadStore : String → Option StoredPayload := fun k =>
  if k = "argentina" then some StoredPayload.nonObject else none

/-- Store with no entries. -/
def emptyStore : String → Option StoredPayload := fun _ => none

/-- Record whose symbol is non-empty but blank, then dropped by `load`'s
strip-and-filter step. -/
def c8BadRecord : EquityQuote := ⟨" ", "x", ""⟩

/-- Filter environment in which the region checkbox is never found. -/
def c9EnvFail : FilterEnv :=
  { menuOpens := true, regionFound := false, buttonTextUpdates := true,
    tableSettles := true }

/-- Filter environment in which every browser interaction succeeds. -/
def c9EnvOk : FilterEnv :=
  { menuOpens := true, regionFound := true, buttonTextUpdates := true,
    tableSettles := true }

/-! ### Helper lemmas: the Python string order -/

theorem charListLe_total : ∀ a b : List Char,
    charListLe a b = true ∨ charListLe b a = true := by
  intro a
  induction a with
  | nil => intro b; left; rfl
  | cons x xs ih =>
    intro b
    cases b with
    | nil => right; rfl
    | cons y ys =>
      rcases Nat.lt_trichotomy x.toNat y.toNat with h | h | h
      · left; simp [charListLe, h]
      · have h1 : ¬ x.toNat < y.toNat := by omega
        have h2 : ¬ y.toNat < x.toNat := by omega
        rcases ih ys with hl | hr
        · left; simp [charListLe, h1, h2, hl]
        · right; simp [charListLe, h1, h2, hr]
      · right; simp [charListLe, h]

theorem charListLe_trans : ∀ a b c : List Char,
    charListLe a b = true → charListLe b c = true → charListLe a c = true := by
  intro a
  induction a with
  | nil => intro b c _ _; rfl
  | cons x xs ih =>
    intro b c hab hbc
    cases b with
    | nil => simp [charListLe] at hab
    | cons y ys =>
      cases c with
      | nil => simp [charListLe] at hbc
      | cons z zs =>
        rcases Nat.lt_trichotomy x.toNat y.toNat with hxy | hxy | hxy
        · rcases Nat.lt_trichotomy y.toNat z.toNat with hyz | hyz | hyz
          · simp [charListLe, show x.toNat < z.toNat by omega]
          · simp [charListLe, show x.toNat < z.toNat by omega]
          · simp [charListLe, show ¬ y.toNat < z.toNat by omega, hyz] at hbc
        · rcases Nat.lt_trichotomy y.toNat z.toNat with hyz | hyz | hyz
          · simp [charListLe, show x.toNat < z.toNat by omega]
          · have e1 : ¬ x.toNat < y.toNat := by omega
            have e2 : ¬ y.toNat < x.toNat := by omega
            have e3 : ¬ y.toNat < z.toNat := by omega
            have e4 : ¬ z.toNat < y.toNat := by omega
            simp only [charListLe, if_neg e1, if_neg e2] at hab
            simp only [charListLe, if_neg e3, if_neg e4] at hbc
            simp [charListLe, show ¬ x.toNat < z.toNat by omega,
              show ¬ z.toNat < x.toNat by omega, ih ys zs hab hbc]
          · simp [charListLe, show ¬ y.toNat < z.toNat by omega, hyz] at hbc
        · simp [charListLe, show ¬ x.toNat < y.toNat by omega, hxy] at hab

theorem pyStrLe_total (a b : String) : pyStrLe a b = true ∨ pyStrLe b a = true :=
  charListLe_total a.data b.data

theorem pyStrLe_trans (a b c : String) (hab : pyStrLe a b = true)
    (hbc : pyStrLe b c = true) : pyStrLe a c = true :=
  charListLe_trans a.data b.data c.data hab hbc

theorem pyStrLt_of_le_ne (a b : String) (hle : pyStrLe a b = true) (hne : a ≠ b) :
    pyStrLt a b = true := by
  have : (a == b) = false := beq_eq_false_iff_ne.mpr hne
  simp [pyStrLt, hle, this]

/-! ### Helper lemmas: association lookups -/

theorem assocLookup_append {β : Type} (l₁ l₂ : List (String × β)) (s : String) :
    assocLookup (l₁ ++ l₂) s =
      match assocLookup l₁ s with
      | some v => some v
      | none => assocLookup l₂ s := by
  induction l₁ with
  | nil => rfl
  | cons p rest ih =>
    by_cases h : p.1 = s
    · simp [assocLookup, h]
    · simpa [assocLookup, h] using ih

theorem assocLookup_eq_none_iff {β : Type} (m : List (String × β)) (s : String) :
    assocLookup m s = none ↔ s ∉ m.map Prod.fst := by
  induction m with
  | nil => simp [assocLookup]
  | cons p rest ih =>
    by_cases h : p.1 = s
    · simp [assocLookup, h]
    · simp only [assocLookup, if_neg h, List.map_cons, List.mem_cons]
      rw [ih]
      constructor
      · intro hn hc
        rcases hc with hc | hc
        · exact h hc.symm
        · exact hn hc
      · intro hn hc
        exact hn (Or.inr hc)

theorem assocLookup_mem {β : Type} (m : List (String × β)) (s : String) (v : β)
    (h : assocLookup m s = some v) : (s, v) ∈ m := by
  induction m with
  | nil => simp [assocLookup] at h
  | cons p rest ih =>
    rcases p with ⟨k, v0⟩
    by_cases hp : k = s
    · subst hp
      simp only [assocLookup, if_pos rfl] at h
      cases h
      exact List.mem_cons_self _ _
    · simp only [assocLookup, if_neg hp] at h
      exact List.mem_cons_of_mem _ (ih h)

theorem assocLookup_isSome_of_mem_keys {β : Type} (m : List (String × β))
    (s : String) (h : s ∈ m.map Prod.fst) : ∃ v, assocLookup m s = some v := by
  cases hl : assocLookup m s with
  | none => exact absurd ((assocLookup_eq_none_iff m s).mp hl) (by simp [h])
  | some v => exact ⟨v, rfl⟩

/-! ### Helper lemmas: the symbol map invariant -/

theorem mapInv_nil : MapInv [] [] := by
  refine ⟨List.nodup_nil, by simp, fun s => rfl⟩

theorem mapInv_insert {m : List (String × EquityQuote)} {seen : List EquityQuote}
    (h : MapInv m seen) (q : EquityQuote) :
    MapInv (insertIfAbsent m q) (seen ++ [q]) := by
  unfold insertIfAbsent
  cases hq : assocLookup m q.symbol with
  | some v =>
    refine ⟨h.nodupKeys, h.keysMatch, fun s => ?_⟩
    rw [h.lookupEq s, List.find?_append]
    cases hfind : seen.find? (fun r => r.symbol == s) with
    | some w => rfl
    | none =>
      by_cases hs : s = q.symbol
      · rw [hs] at hfind
        rw [h.lookupEq q.symbol, hfind] at hq
        cases hq
      · simp [List.find?, show (q.symbol == s) = false from
          beq_eq_false_iff_ne.mpr (fun hc => hs hc.symm)]
  | none =>
    have hnotin : q.symbol ∉ m.map Prod.fst := (assocLookup_eq_none_iff m q.symbol).mp hq
    refine ⟨?_, ?_, ?_⟩
    · rw [List.map_append]
      rw [List.nodup_append]
      refine ⟨h.nodupKeys, List.nodup_singleton _, ?_⟩
      intro a ha hb
      simp only [List.map_cons, List.map_nil, List.mem_singleton] at hb
      rw [hb] at ha
      exact hnotin ha
    · intro p hp
      rcases List.mem_append.mp hp with hp | hp
      · exact h.keysMatch p hp
      · simp only [List.mem_singleton] at hp
        rw [hp]
    · intro s
      rw [assocLookup_append, h.lookupEq s, List.find?_append]
      cases hfind : seen.find? (fun r => r.symbol == s) with
      | some w => rfl
      | none =>
        by_cases hs : q.symbol = s
        · simp [assocLookup, List.find?, hs]
        · simp [assocLookup, List.find?, hs,
            show (q.symbol == s) = false from beq_eq_false_iff_ne.mpr hs]

theorem mapInv_foldl {m : List (String × EquityQuote)} {seen : List EquityQuote}
    (quotes : List EquityQuote) (h : MapInv m seen) :
    MapInv (quotes.foldl insertIfAbsent m) (seen ++ quotes) := by
  induction quotes generalizing m seen with
  | nil => simpa using h
  | cons q qs ih =>
    have step := ih (mapInv_insert h q)
    simpa [List.append_assoc] using step

theorem crawlLoop_mapInv (parse : String → List EquityQuote)
    (source : Nat → String × Bool) (maxPages : Option Int) :
    ∀ (fuel : Nat) (st st' : CrawlState), MapInv st.bySymbol st.seen →
      crawlLoop parse source maxPages fuel st = some st' →
      MapInv st'.bySymbol st'.seen := by
  intro fuel
  induction fuel with
  | zero => intro st st' _ hrun; simp [crawlLoop] at hrun
  | succ n ih =>
    intro st st' h hrun
    simp only [crawlLoop] at hrun
    split at hrun
    · cases hrun
      exact mapInv_foldl _ h
    · split at hrun
      · cases hrun
        exact mapInv_foldl _ h
      · split at hrun
        · cases hrun
          exact mapInv_foldl _ h
        · exact ih _ _ (mapInv_foldl _ h) hrun

/-! ### Helper lemmas: from the invariant to the output contract -/

theorem filterMap_lookup_map_symbol (m : List (String × EquityQuote))
    (hkm : ∀ p ∈ m, p.2.symbol = p.1) :
    ∀ ks : List String, (∀ k ∈ ks, k ∈ m.map Prod.fst) →
      (ks.filterMap (assocLookup m)).map (fun q => q.symbol) = ks := by
  intro ks
  induction ks with
  | nil => intro _; rfl
  | cons k rest ih =>
    intro hks
    obtain ⟨v, hv⟩ := assocLookup_isSome_of_mem_keys m k (hks k (List.mem_cons_self _ _))
    have hsym : v.symbol = k := hkm (k, v) (assocLookup_mem m k v hv)
    simp only [List.filterMap_cons, hv, List.map_cons, hsym]
    rw [ih (fun a ha => hks a (List.mem_cons_of_mem _ ha))]

theorem crawlRecords_output (m : List (String × EquityQuote))
    (seen : List EquityQuote) (h : MapInv m seen) :
    List.Pairwise (fun a b => pyStrLt a b = true)
        ((crawlRecords m).map (fun q => q.symbol))
      ∧ (∀ q ∈ crawlRecords m, seen.find? (fun r => r.symbol == q.symbol) = some q)
      ∧ (∀ r ∈ seen, ∃ q ∈ crawlRecords m, q.symbol = r.symbol) := by
  have hperm := List.perm_insertionSort (fun a b => pyStrLe a b = true) (m.map Prod.fst)
  have hsorted :=
    @List.sorted_insertionSort String (fun a b => pyStrLe a b = true) _
      ⟨fun a b => pyStrLe_total a b⟩ ⟨fun a b c => pyStrLe_trans a b c⟩ (m.map Prod.fst)
  have hnodup : (List.insertionSort (fun a b => pyStrLe a b = true) (m.map Prod.fst)).Nodup :=
    hperm.nodup_iff.mpr h.nodupKeys
  have hkeys : ∀ k ∈ List.insertionSort (fun a b => pyStrLe a b = true) (m.map Prod.fst),
      k ∈ m.map Prod.fst := fun k hk => hperm.mem_iff.mp hk
  have hmap := filterMap_lookup_map_symbol m h.keysMatch _ hkeys
  refine ⟨?_, ?_, ?_⟩
  · rw [crawlRecords, hmap]
    exact (hsorted.and hnodup).imp (fun hab => pyStrLt_of_le_ne _ _ hab.1 hab.2)
  · intro q hq
    rcases List.mem_filterMap.mp hq with ⟨k, hkmem, hkv⟩
    have hsym : q.symbol = k := h.keysMatch (k, q) (assocLookup_mem m k q hkv)
    rw [← h.lookupEq q.symbol, hsym]
    exact hkv
  · intro r hr
    have hfind : ∃ x, seen.find? (fun x => x.symbol == r.symbol) = some x := by
      have : (seen.find? (fun x => x.symbol == r.symbol)).isSome = true :=
        List.find?_isSome.mpr ⟨r, hr, by simp⟩
      exact Option.isSome_iff_exists.mp this
    rcases hfind with ⟨x, hx⟩
    have hlook : assocLookup m r.symbol = some x := by rw [h.lookupEq r.symbol]; exact hx
    have hmem : r.symbol ∈ m.map Prod.fst := by
      have := assocLookup_mem m r.symbol x hlook
      exact List.mem_map.mpr ⟨(r.symbol, x), this, rfl⟩
    have hks : r.symbol ∈ (crawlRecords m).map (fun q => q.symbol) := by
      rw [crawlRecords, hmap]
      exact hperm.mem_iff.mpr hmem
    rcases List.mem_map.mp hks with ⟨q, hqmem, hqsym⟩
    exact ⟨q, hqmem, hqsym⟩

/-! ### Helper lemmas: single loop iterations -/

theorem crawlLoop_succ_guard (parse : String → List EquityQuote)
    (source : Nat → String × Bool) (maxPages : Option Int) (fuel : Nat) (st : CrawlState)
    (hg : loopGuardFires (pageSignature (curQuotes parse source st)) st.lastSignature
      (curNext source st) = true) :
    crawlLoop parse source maxPages (fuel + 1) st = some (guardBreakState parse source st) := by
  simp [crawlLoop, hg]

theorem crawlLoop_succ_maxPages (parse : String → List EquityQuote)
    (source : Nat → String × Bool) (maxPages : Option Int) (fuel : Nat) (st : CrawlState)
    (hg : loopGuardFires (pageSignature (curQuotes parse source st)) st.lastSignature
      (curNext source st) = false)
    (hm : maxPagesReached maxPages st.pageNumber = true) :
    crawlLoop parse source maxPages (fuel + 1) st = some (pageBreakState parse source st) := by
  simp [crawlLoop, hg, hm]

theorem crawlLoop_succ_noNext (parse : String → List EquityQuote)
    (source : Nat → String × Bool) (maxPages : Option Int) (fuel : Nat) (st : CrawlState)
    (hm : maxPagesReached maxPages st.pageNumber = false)
    (hn : curNext source st = false) :
    crawlLoop parse source maxPages (fuel + 1) st = some (pageBreakState parse source st) := by
  simp [crawlLoop, hm, hn, loopGuardFires]

theorem crawlLoop_succ_advance (parse : String → List EquityQuote)
    (source : Nat → String × Bool) (maxPages : Option Int) (fuel : Nat) (st : CrawlState)
    (hg : loopGuardFires (pageSignature (curQuotes parse source st)) st.lastSignature
      (curNext source st) = false)
    (hm : maxPagesReached maxPages st.pageNumber = false)
    (hn : curNext source st = true) :
    crawlLoop parse source maxPages (fuel + 1) st =
      crawlLoop parse source maxPages fuel (advanceState parse source st) := by
  have hg' : loopGuardFires (pageSignature (curQuotes parse source st)) st.lastSignature
      true = false := by rw [← hn]; exact hg
  simp [crawlLoop, hg', hm, hn]

/-! ### Helper lemmas: idempotence of the merge fold -/

theorem assocLookup_insertIfAbsent_self (m : List (String × EquityQuote))
    (q : EquityQuote) : (assocLookup (insertIfAbsent m q) q.symbol).isSome := by
  unfold insertIfAbsent
  cases h : assocLookup m q.symbol with
  | some v => simp [h]
  | none => rw [assocLookup_append]; simp [h, assocLookup]

theorem assocLookup_insertIfAbsent_mono (m : List (String × EquityQuote))
    (q : EquityQuote) (s : String) (h : (assocLookup m s).isSome) :
    (assocLookup (insertIfAbsent m q) s).isSome := by
  unfold insertIfAbsent
  cases hq : assocLookup m q.symbol with
  | some v => exact h
  | none =>
    rw [assocLookup_append]
    rcases Option.isSome_iff_exists.mp h with ⟨v, hv⟩
    simp [hv]

theorem assocLookup_foldl_isSome (qs : List EquityQuote) :
    ∀ (m : List (String × EquityQuote)) (q : EquityQuote),
      q ∈ qs ∨ (assocLookup m q.symbol).isSome →
      (assocLookup (qs.foldl insertIfAbsent m) q.symbol).isSome := by
  induction qs with
  | nil =>
    intro m q h
    rcases h with h | h
    · cases h
    · simpa using h
  | cons x xs ih =>
    intro m q h
    simp only [List.foldl_cons]
    rcases h with h | h
    · rcases List.mem_cons.mp h with rfl | hx
      · exact ih _ q (Or.inr (assocLookup_insertIfAbsent_self m q))
      · exact ih _ q (Or.inl hx)
    · exact ih _ q (Or.inr (assocLookup_insertIfAbsent_mono m x _ h))

theorem foldl_insertIfAbsent_of_present (qs : List EquityQuote) :
    ∀ m : List (String × EquityQuote),
      (∀ q ∈ qs, (assocLookup m q.symbol).isSome) →
      qs.foldl insertIfAbsent m = m := by
  induction qs with
  | nil => intro m _; rfl
  | cons x xs ih =>
    intro m h
    have hx := h x (List.mem_cons_self _ _)
    have hmx : insertIfAbsent m x = m := by
      unfold insertIfAbsent
      rcases Option.isSome_iff_exists.mp hx with ⟨v, hv⟩
      rw [hv]
    simp only [List.foldl_cons, hmx]
    exact ih m (fun q hq => h q (List.mem_cons_of_mem _ hq))

theorem foldl_insertIfAbsent_twice (qs : List EquityQuote) :
    qs.foldl insertIfAbsent (qs.foldl insertIfAbsent []) = qs.foldl insertIfAbsent [] :=
  foldl_insertIfAbsent_of_present qs _
    (fun q hq => assocLookup_foldl_isSome qs [] q (Or.inl hq))

/-! ### Helper lemmas: the repeated-page scenario -/

theorem repeatedPage_guard_stop (parse : String → List EquityQuote) (html : String)
    (maxPages : Option Int) (n : Nat)
    (hsig : pageSignature (parse html) ≠ [])
    (hmp : maxPagesReached maxPages 1 = false) :
    crawlLoop parse (fun _ => (html, true)) maxPages (n + 2) initState =
      some (guardBreakState parse (fun _ => (html, true))
        (advanceState parse (fun _ => (html, true)) initState)) := by
  have hq0 : curQuotes parse (fun _ => (html, true)) initState = parse html := by
    simp [curQuotes, curHtml, initState, assocLookup]
  have hg0 : loopGuardFires (pageSignature (curQuotes parse (fun _ => (html, true)) initState))
      initState.lastSignature (curNext (fun _ => (html, true)) initState) = false := by
    simp [initState, loopGuardFires]
  have hm0 : maxPagesReached maxPages initState.pageNumber = false := hmp
  have hn0 : curNext (fun _ => (html, true)) initState = true := rfl
  have hstep := crawlLoop_succ_advance parse (fun _ => (html, true)) maxPages (n + 1)
    initState hg0 hm0 hn0
  rw [show n + 2 = (n + 1) + 1 from rfl, hstep]
  have hq1 : curQuotes parse (fun _ => (html, true))
      (advanceState parse (fun _ => (html, true)) initState) = parse html := by
    simp [advanceState, curQuotes, curHtml, nextParsedCache, initState, assocLookup, hq0]
  have hg1 : loopGuardFires (pageSignature (curQuotes parse (fun _ => (html, true))
        (advanceState parse (fun _ => (html, true)) initState)))
      (advanceState parse (fun _ => (html, true)) initState).lastSignature
      (curNext (fun _ => (html, true))
        (advanceState parse (fun _ => (html, true)) initState)) = true := by
    rw [hq1]
    have hlast : (advanceState parse (fun _ => (html, true)) initState).lastSignature =
        some (pageSignature (parse html)) := by
      simp [advanceState, hq0]
    rw [hlast]
    have hnx : curNext (fun _ => (html, true))
        (advanceState parse (fun _ => (html, true)) initState) = true := rfl
    rw [hnx]
    simp [loopGuardFires, List.isEmpty_eq_true, hsig]
  exact crawlLoop_succ_guard parse (fun _ => (html, true)) maxPages n _ hg1

theorem repeatedPage_final_state (parse : String → List EquityQuote) (html : String) :
    guardBreakState parse (fun _ => (html, true))
        (advanceState parse (fun _ => (html, true)) initState) =
      { bySymbol := (parse html).foldl insertIfAbsent [],
        parsedPagesCache := [(html, parse html)],
        pageNumber := 2,
        lastSignature := some (pageSignature (parse html)),
        goNextCalls := 1,
        seen := parse html ++ parse html } := by
  have hq0 : curQuotes parse (fun _ => (html, true)) initState = parse html := by
    simp [curQuotes, curHtml, initState, assocLookup]
  have hcache : nextParsedCache parse (fun _ => (html, true)) initState =
      [(html, parse html)] := by
    simp [nextParsedCache, curHtml, initState, assocLookup]
  have hst1 : advanceState parse (fun _ => (html, true)) initState =
      { bySymbol := (parse html).foldl insertIfAbsent [],
        parsedPagesCache := [(html, parse html)],
        pageNumber := 2,
        lastSignature := some (pageSignature (parse html)),
        goNextCalls := 1,
        seen := parse html } := by
    unfold advanceState mergedBySymbol
    rw [hq0, hcache]
    rfl
  rw [hst1]
  have hq1 : curQuotes parse (fun _ => (html, true))
      ({ bySymbol := (parse html).foldl insertIfAbsent [],
         parsedPagesCache := [(html, parse html)],
         pageNumber := 2,
         lastSignature := some (pageSignature (parse html)),
         goNextCalls := 1,
         seen := parse html } : CrawlState) = parse html := by
    simp [curQuotes, curHtml, assocLookup]
  have hcache1 : nextParsedCache parse (fun _ => (html, true))
      ({ bySymbol := (parse html).foldl insertIfAbsent [],
         parsedPagesCache := [(html, parse html)],
         pageNumber := 2,
         lastSignature := some (pageSignature (parse html)),
         goNextCalls := 1,
         seen := parse html } : CrawlState) = [(html, parse html)] := by
    simp [nextParsedCache, curHtml, assocLookup]
  unfold guardBreakState mergedBySymbol
  rw [hq1, hcache1]
  simp only [foldl_insertIfAbsent_twice]

/-! ### Claim theorems -/

/-- C1: for every region (the loop is independent of it), every page source
and parser, every `max_pages` and any fuel on which the loop terminates, the
returned state satisfies the output contract: at most one record per symbol
with symbols strictly ascending in Python string order, each kept record is
the first-seen occurrence of its symbol in page order, and later duplicates
are dropped silently (every seen symbol is still represented). -/
theorem c1_crawl_dedup_sorted_first_seen (parse : String → List EquityQuote)
    (source : Nat → String × Bool) (maxPages : Option Int) (fuel : Nat)
    (st : CrawlState)
    (h : crawlLoop parse source maxPages fuel initState = some st) :
    CrawlOutputInv st := by
  have hinv := crawlLoop_mapInv parse source maxPages fuel initState st mapInv_nil h
  exact crawlRecords_output st.bySymbol st.seen hinv

/-- Witness for C1 at a concrete one-page source whose rows arrive unsorted. -/
theorem c1_crawl_dedup_sorted_first_seen_witness : CrawlOutputInv c1FinalState :=
  c1_crawl_dedup_sorted_first_seen c1Parse c1Source none 5 c1FinalState (by decide)

/-- C2: when the source serves identical page content forever (same non-empty
signature) with has_next true, the crawl terminates right after the first
repeat: exactly one `go_to_next_page` call, stopped on page 2, and the output
is the single page's first-seen-deduplicated record set.  The loop-guard is
checked before the `max_pages` check: the same run happens for `max_pages =
none` and for every `max_pages ≥ 2`, including `max_pages = 2` where the
page-limit condition holds simultaneously on page 2. -/
theorem c2_repeated_page_one_advance (parse : String → List EquityQuote)
    (html : String) (maxPages : Option Int) (fuel : Nat)
    (hsig : pageSignature (parse html) ≠ [])
    (hmp : maxPages = none ∨ ∃ m, maxPages = some m ∧ 2 ≤ m)
    (hfuel : 2 ≤ fuel) :
    ∃ st, crawlLoop parse (fun _ => (html, true)) maxPages fuel initState = some st
      ∧ st.goNextCalls = 1
      ∧ st.pageNumber = 2
      ∧ st.bySymbol = (parse html).foldl insertIfAbsent []
      ∧ crawlRecords st.bySymbol = crawlRecords ((parse html).foldl insertIfAbsent []) := by
  obtain ⟨n, rfl⟩ := Nat.exists_eq_add_of_le hfuel
  have hmp1 : maxPagesReached maxPages 1 = false := by
    rcases hmp with rfl | ⟨m, rfl, hm2⟩
    · rfl
    · simp only [maxPagesReached, decide_eq_false_iff_not]
      omega
  rw [show 2 + n = n + 2 by omega]
  rw [repeatedPage_guard_stop parse html maxPages n hsig hmp1]
  rw [repeatedPage_final_state]
  exact ⟨_, rfl, rfl, rfl, rfl, rfl⟩

/-- Witness for C2: the two-record page served forever with `max_pages = 7`. -/
theorem c2_repeated_page_one_advance_witness :
    ∃ st, crawlLoop c2Parse (fun _ => ("page", true)) (some 7) 9 initState = some st
      ∧ st.goNextCalls = 1
      ∧ st.pageNumber = 2
      ∧ st.bySymbol = (c2Parse "page").foldl insertIfAbsent []
      ∧ crawlRecords st.bySymbol = crawlRecords ((c2Parse "page").foldl insertIfAbsent []) :=
  c2_repeated_page_one_advance c2Parse "page" (some 7) 9 (by decide)
    (Or.inr ⟨7, rfl, by omega⟩) (by omega)

/-- C3 counterexample: a fixed, unchanging page content that parses to no
records, served with has_next = true, makes the crawl loop spin forever — the
loop-guard never fires because the empty signature is falsy — so "crawl
always terminates against a fixed, unchanging sequence of page contents" is
false as stated. -/
theorem c3_counterexample_empty_page_diverges :
    crawlLoopDiverges emptyParse repeatTrueSource none := by
  intro fuel
  suffices h : ∀ (f : Nat) (st : CrawlState), (∀ p ∈ st.parsedPagesCache, p.2 = []) →
      crawlLoop emptyParse repeatTrueSource none f st = none by
    exact h fuel initState (by simp [initState])
  intro f
  induction f with
  | zero => intro st _; rfl
  | succ n ih =>
    intro st hc
    have hq : curQuotes emptyParse repeatTrueSource st = [] := by
      unfold curQuotes
      cases hl : assocLookup st.parsedPagesCache (curHtml repeatTrueSource st) with
      | none => simp [emptyParse]
      | some v =>
        have hv : v = [] := hc _ (assocLookup_mem _ _ _ hl)
        simp [hv]
    have hg : loopGuardFires (pageSignature (curQuotes emptyParse repeatTrueSource st))
        st.lastSignature (curNext repeatTrueSource st) = false := by
      rw [hq]
      simp [pageSignature, loopGuardFires]
    have hm : maxPagesReached none st.pageNumber = false := rfl
    have hn : curNext repeatTrueSource st = true := rfl
    rw [crawlLoop_succ_advance _ _ _ _ _ hg hm hn]
    apply ih
    intro p hp
    have hp' : p ∈ nextParsedCache emptyParse repeatTrueSource st := hp
    unfold nextParsedCache at hp'
    cases hl : assocLookup st.parsedPagesCache (curHtml repeatTrueSource st) with
    | some v =>
      rw [hl] at hp'
      exact hc _ hp'
    | none =>
      rw [hl] at hp'
      rcases List.mem_append.mp hp' with hmem | hmem
      · exact hc _ hmem
      · simp only [List.mem_singleton] at hmem
        rw [hmem]
        rfl

/-- C3 amended: against a fixed, unchanging page content the crawl terminates
(any fuel of at least 2 suffices) and returns the page's deduplicated record
set — the same set no matter how much longer the repeated page could have
been served — provided the page parses to at least one record or reports no
next page.  (With zero parsed records and has_next = true the loop diverges,
see the counterexample.) -/
theorem c3_fixed_page_terminates (parse : String → List EquityQuote) (html : String)
    (hasNext : Bool) (fuel : Nat)
    (h : pageSignature (parse html) ≠ [] ∨ hasNext = false)
    (hfuel : 2 ≤ fuel) :
    ∃ st, crawlLoop parse (fun _ => (html, hasNext)) none fuel initState = some st
      ∧ st.bySymbol = (parse html).foldl insertIfAbsent []
      ∧ crawlRecords st.bySymbol = crawlRecords ((parse html).foldl insertIfAbsent []) := by
  cases hasNext with
  | false =>
    obtain ⟨n, rfl⟩ := Nat.exists_eq_add_of_le hfuel
    rw [show 2 + n = (1 + n) + 1 by omega]
    have hm : maxPagesReached none initState.pageNumber = false := rfl
    have hn : curNext (fun _ => (html, false)) initState = false := rfl
    rw [crawlLoop_succ_noNext _ _ _ _ _ hm hn]
    have hq0 : curQuotes parse (fun _ => (html, false)) initState = parse html := by
      simp [curQuotes, curHtml, initState, assocLookup]
    have hby : (pageBreakState parse (fun _ => (html, false)) initState).bySymbol =
        (parse html).foldl insertIfAbsent [] := by
      show mergedBySymbol parse (fun _ => (html, false)) initState = _
      rw [mergedBySymbol, hq0]
      rfl
    exact ⟨_, rfl, hby, by rw [hby]⟩
  | true =>
    rcases h with h | h
    · obtain ⟨n, rfl⟩ := Nat.exists_eq_add_of_le hfuel
      rw [show 2 + n = n + 2 by omega]
      rw [repeatedPage_guard_stop parse html none n h rfl]
      rw [repeatedPage_final_state]
      exact ⟨_, rfl, rfl, rfl⟩
    · cases h

/-- Witness for the amended C3 at the concrete two-record page. -/
theorem c3_fixed_page_terminates_witness :
    ∃ st, crawlLoop c2Parse (fun _ => ("page", true)) none 5 initState = some st
      ∧ st.bySymbol = (c2Parse "page").foldl insertIfAbsent []
      ∧ crawlRecords st.bySymbol = crawlRecords ((c2Parse "page").foldl insertIfAbsent []) :=
  c3_fixed_page_terminates c2Parse "page" true 5 (Or.inl (by decide)) (by omega)

/-! ### Helper lemmas: bounded crawl over pages with non-repeating signatures -/

theorem crawlLoop_distinct_pages (parse : String → List EquityQuote)
    (source : Nat → String × Bool) (N : Nat)
    (hnext : ∀ i, i < N → (source i).2 = true)
    (hsig : ∀ i, i + 3 ≤ N →
      ¬(sigAt parse source (i + 1) ≠ [] ∧ sigAt parse source (i + 1) = sigAt parse source i)) :
    ∀ (fuel : Nat) (k : Nat) (st : CrawlState),
      1 ≤ k → k ≤ N →
      st.pageNumber = k →
      st.lastSignature = (if k = 1 then none else some (sigAt parse source (k - 2))) →
      st.bySymbol = (pagesConcat parse source (k - 1)).foldl insertIfAbsent [] →
      (∀ p ∈ st.parsedPagesCache, p.2 = parse p.1) →
      N - k < fuel →
      ∃ st', crawlLoop parse source (some (N : Int)) fuel st = some st'
        ∧ st'.goNextCalls = st.goNextCalls + (N - k)
        ∧ st'.bySymbol = (pagesConcat parse source N).foldl insertIfAbsent [] := by
  intro fuel
  induction fuel with
  | zero => intro k st _ _ _ _ _ _ hf; omega
  | succ n ih =>
    intro k st hk1 hkN hpn hlast hby hcache hf
    have hcur : curHtml source st = (source (k - 1)).1 := by rw [curHtml, hpn]
    have hnx : curNext source st = (source (k - 1)).2 := by rw [curNext, hpn]
    have hq : curQuotes parse source st = parse ((source (k - 1)).1) := by
      unfold curQuotes
      rw [hcur]
      cases hl : assocLookup st.parsedPagesCache ((source (k - 1)).1) with
      | none => rfl
      | some v =>
        have hv := hcache _ (assocLookup_mem _ _ _ hl)
        simpa using hv
    have hsigcur : pageSignature (parse ((source (k - 1)).1)) = sigAt parse source (k - 1) := rfl
    have hmerged : mergedBySymbol parse source st =
        (pagesConcat parse source k).foldl insertIfAbsent [] := by
      rw [mergedBySymbol, hq, hby]
      conv_rhs => rw [show k = (k - 1) + 1 by omega]
      rw [pagesConcat]
      rw [List.foldl_append]
    have hcache' : ∀ p ∈ nextParsedCache parse source st, p.2 = parse p.1 := by
      intro p hp
      unfold nextParsedCache at hp
      cases hl : assocLookup st.parsedPagesCache (curHtml source st) with
      | some v => rw [hl] at hp; exact hcache _ hp
      | none =>
        rw [hl] at hp
        rcases List.mem_append.mp hp with hmem | hmem
        · exact hcache _ hmem
        · simp only [List.mem_singleton] at hmem
          rw [hmem]
    by_cases hkN' : k < N
    · have hg : loopGuardFires (pageSignature (curQuotes parse source st)) st.lastSignature
          (curNext source st) = false := by
        rw [hq, hlast]
        by_cases hk1' : k = 1
        · rw [if_pos hk1']
          simp [loopGuardFires]
        · rw [if_neg hk1']
          have hs := hsig (k - 2) (by omega)
          have hkk : k - 2 + 1 = k - 1 := by omega
          rw [hkk] at hs
          rw [hsigcur]
          by_cases hemp : sigAt parse source (k - 1) = []
          · rw [hemp]
            simp [loopGuardFires]
          · have hne : sigAt parse source (k - 1) ≠ sigAt parse source (k - 2) := by
              intro he
              exact hs ⟨hemp, he⟩
            have hbeq : ((some (sigAt parse source (k - 2)) : Option (List String)) ==
                some (sigAt parse source (k - 1))) = false := by
              rw [beq_eq_false_iff_ne]
              intro he
              exact hne (Option.some.inj he).symm
            simp [loopGuardFires, hbeq]
      have hm : maxPagesReached (some (N : Int)) st.pageNumber = false := by
        rw [hpn]
        simp only [maxPagesReached, decide_eq_false_iff_not]
        rw [show (((N : Nat) : Int) ≤ ((k : Nat) : Int)) ↔ N ≤ k from Nat.cast_le]
        omega
      have hnx' : curNext source st = true := by
        rw [hnx]
        exact hnext (k - 1) (by omega)
      rw [crawlLoop_succ_advance _ _ _ _ _ hg hm hnx']
      have h1 : (advanceState parse source st).pageNumber = k + 1 := by
        show st.pageNumber + 1 = k + 1
        rw [hpn]
      have h2 : (advanceState parse source st).lastSignature =
          (if k + 1 = 1 then none else some (sigAt parse source (k + 1 - 2))) := by
        show some (pageSignature (curQuotes parse source st)) = _
        rw [if_neg (by omega)]
        rw [hq, hsigcur]
        have hkk : k + 1 - 2 = k - 1 := by omega
        rw [hkk]
      have h3 : (advanceState parse source st).bySymbol =
          (pagesConcat parse source (k + 1 - 1)).foldl insertIfAbsent [] := by
        show mergedBySymbol parse source st = _
        rw [hmerged, Nat.add_sub_cancel]
      obtain ⟨st', hrun, hcalls, hby'⟩ := ih (k + 1) (advanceState parse source st)
        (by omega) (by omega) h1 h2 h3 hcache' (by omega)
      refine ⟨st', hrun, ?_, hby'⟩
      have hadv : (advanceState parse source st).goNextCalls = st.goNextCalls + 1 := rfl
      rw [hadv] at hcalls
      omega
    · have hkeq : k = N := by omega
      subst hkeq
      have hm : maxPagesReached (some (k : Int)) st.pageNumber = true := by
        rw [hpn]
        simp [maxPagesReached]
      cases hgv : loopGuardFires (pageSignature (curQuotes parse source st)) st.lastSignature
          (curNext source st) with
      | true =>
        rw [crawlLoop_succ_guard _ _ _ _ _ hgv]
        refine ⟨_, rfl, ?_, ?_⟩
        · show st.goNextCalls = st.goNextCalls + (k - k)
          omega
        · show mergedBySymbol parse source st = _
          rw [hmerged]
      | false =>
        rw [crawlLoop_succ_maxPages _ _ _ _ _ hgv hm]
        refine ⟨_, rfl, ?_, ?_⟩
        · show st.goNextCalls = st.goNextCalls + (k - k)
          omega
        · show mergedBySymbol parse source st = _
          rw [hmerged]

/-- C4 counterexample: three pairwise distinct pages, all reporting has_next,
with `max_pages = 3`.  Pages A and B differ only in their fourth row, so the
loop-guard sees a repeated first-3-symbol signature and stops after one
single `go_to_next_page` call (the claim requires exactly two), and the
returned records omit page C's "DDD.BA". -/
theorem c4_counterexample_shared_signature :
    (c4Parse "pageA" ≠ c4Parse "pageB" ∧ c4Parse "pageA" ≠ c4Parse "pageC"
      ∧ c4Parse "pageB" ≠ c4Parse "pageC")
    ∧ (crawlLoop c4Parse c4Source (some 3) 10 initState).map CrawlState.goNextCalls = some 1
    ∧ (crawlLoop c4Parse c4Source (some 3) 10 initState).map
        (fun st => (crawlRecords st.bySymbol).map (fun q => q.symbol)) =
      some ["AAA.BA", "BBB.BA", "CCC.BA", "XXX.BA", "YYY.BA"] := by
  refine ⟨⟨by decide, by decide, by decide⟩, by decide, by decide⟩

/-- C4 amended: with `max_pages = N ≥ 1` against a source whose first `N`
pages all report has_next and whose consecutive pages among the first `N - 1`
never repeat a non-empty first-3-symbol signature, the crawl makes exactly
`N - 1` `go_to_next_page` calls and returns exactly the first-seen
deduplication of the records visible on the first `N` pages.  (Distinctness
of whole pages is not enough: see the counterexample.) -/
theorem c4_max_pages_exact (parse : String → List EquityQuote)
    (source : Nat → String × Bool) (N : Nat) (fuel : Nat)
    (hN : 1 ≤ N)
    (hnext : ∀ i, i < N → (source i).2 = true)
    (hsig : ∀ i, i + 3 ≤ N →
      ¬(sigAt parse source (i + 1) ≠ [] ∧ sigAt parse source (i + 1) = sigAt parse source i))
    (hfuel : N ≤ fuel) :
    ∃ st, crawlLoop parse source (some (N : Int)) fuel initState = some st
      ∧ st.goNextCalls = N - 1
      ∧ st.bySymbol = (pagesConcat parse source N).foldl insertIfAbsent []
      ∧ crawlRecords st.bySymbol =
          crawlRecords ((pagesConcat parse source N).foldl insertIfAbsent []) := by
  obtain ⟨st', hrun, hcalls, hby⟩ := crawlLoop_distinct_pages parse source N hnext hsig
    fuel 1 initState (le_refl 1) hN rfl (by rw [if_pos rfl]; rfl) rfl
    (by intro p hp; simp [initState] at hp) (by omega)
  refine ⟨st', hrun, ?_, hby, by rw [hby]⟩
  have hzero : initState.goNextCalls = 0 := rfl
  rw [hzero] at hcalls
  omega

/-- Witness for the amended C4: two pages with distinct signatures,
`max_pages = 2`. -/
theorem c4_max_pages_exact_witness :
    ∃ st, crawlLoop c4WitnessParse c4WitnessSource (some (2 : Nat)) 6 initState = some st
      ∧ st.goNextCalls = 2 - 1
      ∧ st.bySymbol = (pagesConcat c4WitnessParse c4WitnessSource 2).foldl insertIfAbsent []
      ∧ crawlRecords st.bySymbol =
          crawlRecords ((pagesConcat c4WitnessParse c4WitnessSource 2).foldl insertIfAbsent []) :=
  c4_max_pages_exact c4WitnessParse c4WitnessSource 2 6 (by omega)
    (fun i _ => rfl) (fun i hi => absurd hi (by omega)) (by omega)

/-! ### Helper lemmas: cache layer -/

theorem parseStoredRecords_map_self (records : List EquityQuote)
    (h : ∀ q ∈ records, StripStable q) :
    parseStoredRecords (records.map (fun q =>
      ({ symbol := q.symbol, name := q.name, price := q.price } : RawRecord))) = records := by
  induction records with
  | nil => rfl
  | cons q qs ih =>
    obtain ⟨h1, h2, h3, h4, h5⟩ := h q (List.mem_cons_self _ _)
    simp only [List.map_cons, parseStoredRecords, List.filterMap_cons]
    simp only [h1, h2, h3]
    rw [if_neg (by simp [h4, h5])]
    have ihr := ih (fun r hr => h r (List.mem_cons_of_mem _ hr))
    simp only [parseStoredRecords] at ihr
    rw [ihr]

/-- C7 counterexamples.  First, to the literal freshness condition: a
snapshot of age 0 with ttl = -1 minute — the claim's condition
`now - created_at > ttl` (0 > -60 seconds) holds, so the claim demands
absent, but `load` clamps the TTL at 0 and returns the snapshot.  Second, to
"never raises an exception": a stored entry of valid JSON that is not an
object makes `payload.get("version")` raise `AttributeError` out of `load`
(only `json.loads` is inside the `try` block). -/
theorem c7_counterexample_negative_ttl :
    (QuoteCache.load c7Store 0 "argentina" (-1) =
        Except.ok (some [{ symbol := "AAA.BA", name := "Alpha Corp", price := "10.00" }])
      ∧ ((0 : Int) - 0 > 60 * (-1 : Int)))
    ∧ QuoteCache.load c7BadStore 0 "argentina" 30 =
        Except.error "AttributeError: payload has no attribute get" := by
  refine ⟨⟨by decide, by decide⟩, by decide⟩

/-- C7 amended: for every region and ttl, both backends' `load` answers
absent exactly when: no entry exists / the backend errors or replies empty
(Redis), the stored payload is rejected by `json.loads` (warning logged),
the schema version differs from 1, the `created_at` timestamp is missing,
falsy or an unparseable string, or the snapshot's age exceeds `max(ttl, 0)`.
Only the backend read and `json.loads` are guarded, so `load` raises exactly
when a shape access blows up: a valid-JSON non-object payload, a truthy
non-string `created_at` reached with a matching version, or a fresh snapshot
whose `records` value is not a list of dicts.  On every other input the
re-hydrated snapshot is returned present. -/
theorem c7_cache_absent_iff (store : String → Option StoredPayload)
    (key_pfx : String) (rstore : String → RedisReply) (now : Int)
    (region : String) (ttl_minutes : Int) :
    ((QuoteCache.load store now region ttl_minutes = Except.ok none ↔
        quoteCacheMissCond store now region ttl_minutes)
      ∧ ((∃ msg, QuoteCache.load store now region ttl_minutes = Except.error msg) ↔
        quoteCacheRaisesCond store now region ttl_minutes))
    ∧ ((RedisQuoteCache.load key_pfx rstore now region ttl_minutes = Except.ok none ↔
        redisCacheMissCond key_pfx rstore now region ttl_minutes)
      ∧ ((∃ msg, RedisQuoteCache.load key_pfx rstore now region ttl_minutes =
          Except.error msg) ↔
        redisCacheRaisesCond key_pfx rstore now region ttl_minutes)) := by
  constructor
  · unfold QuoteCache.load quoteCacheMissCond quoteCacheRaisesCond
    cases store (normalizeRegion region) with
    | none => simp
    | some payload =>
      cases payload with
      | malformed => simp
      | nonObject => simp
      | valid version created_at records =>
        by_cases hv : version = some 1
        · cases created_at with
          | missing => simp [hv]
          | unparseable s => simp [hv]
          | nonString => simp [hv]
          | parsed t =>
            by_cases ht : now - t > 60 * max ttl_minutes 0
            · simp [hv, ht]
            · cases records with
              | rows rs => simp [hv, ht]
              | badShape => simp [hv, ht]
        · simp [hv]
  · unfold RedisQuoteCache.load redisCacheMissCond redisCacheRaisesCond
    cases rstore (RedisQuoteCache.cacheKey key_pfx region) with
    | backendError => simp
    | noValue => simp
    | value payload =>
      cases payload with
      | malformed => simp
      | nonObject => simp
      | valid version created_at records =>
        by_cases hv : version = some 1
        · cases created_at with
          | missing => simp [hv]
          | unparseable s => simp [hv]
          | nonString => simp [hv]
          | parsed t =>
            by_cases ht : now - t > 60 * max ttl_minutes 0
            · simp [hv, ht]
            · cases records with
              | rows rs => simp [hv, ht]
              | badShape => simp [hv, ht]
        · simp [hv]

/-- C8 counterexample: a record whose symbol is non-empty but blank (" ") and
whose name is non-empty survives `save`, but `load` strips and drops it, so
the round trip returns `[]` instead of the saved one-record list. -/
theorem c8_counterexample_blank_symbol :
    c8BadRecord.symbol ≠ "" ∧ c8BadRecord.name ≠ ""
      ∧ QuoteCache.load (QuoteCache.save emptyStore 0 "Argentina" [c8BadRecord])
          0 "Argentina" 30 = Except.ok (some [])
      ∧ ([] : List EquityQuote) ≠ [c8BadRecord] := by
  refine ⟨by decide, by decide, by decide, by decide⟩

/-- C8 amended: `save` then immediate `load` with ttl ≥ 0 returns exactly the
saved records (same records, same insertion order) provided each record's
fields are strip-stable with non-empty symbol and name — the shape every
record produced by the parser has.  (A record with leading/trailing
whitespace or a blank required field is altered or dropped by the re-read:
see the counterexample.) -/
theorem c8_save_load_round_trip (store : String → Option StoredPayload)
    (now : Int) (region : String) (records : List EquityQuote) (ttl_minutes : Int)
    (httl : 0 ≤ ttl_minutes)
    (hrec : ∀ q ∈ records, StripStable q) :
    QuoteCache.load (QuoteCache.save store now region records) now region ttl_minutes =
      Except.ok (some records) := by
  have hkey : QuoteCache.save store now region records (normalizeRegion region) =
      some (StoredPayload.valid (some 1) (TimestampRaw.parsed now)
        (RecordsField.rows (records.map (fun q =>
          ({ symbol := q.symbol, name := q.name, price := q.price } : RawRecord))))) := by
    unfold QuoteCache.save
    rw [if_pos rfl]
  have hcond : ¬ (now - now > 60 * max ttl_minutes 0) := by
    rw [max_eq_left httl]
    omega
  unfold QuoteCache.load
  rw [hkey]
  simp [hcond, parseStoredRecords_map_self records hrec]

/-- Witness for the amended C8 at two concrete parser-shaped records. -/
theorem c8_save_load_round_trip_witness :
    QuoteCache.load (QuoteCache.save emptyStore 100 "Argentina" [wQ1, wQ2])
        100 "Argentina" 30 = Except.ok (some [wQ1, wQ2]) :=
  c8_save_load_round_trip emptyStore 100 "Argentina" [wQ1, wQ2] 30 (by omega)
    (by
      intro q hq
      fin_cases hq
      · exact ⟨by decide, by decide, by decide, by decide, by decide⟩
      · exact ⟨by decide, by decide, by decide, by decide, by decide⟩)

/-- C10: a negative `ttl_minutes` is clamped: `load` behaves exactly like
`load` with ttl 0 on both backends (including on shape-bad payloads, where
both calls raise identically), and in particular a snapshot with a parsed
timestamp whose age exceeds zero is reported absent rather than raising,
whatever its records field holds. -/
theorem c10_negative_ttl_clamped (store : String → Option StoredPayload)
    (key_pfx : String) (rstore : String → RedisReply) (now : Int)
    (region : String) (ttl_minutes : Int) (httl : ttl_minutes < 0) :
    QuoteCache.load store now region ttl_minutes = QuoteCache.load store now region 0
    ∧ RedisQuoteCache.load key_pfx rstore now region ttl_minutes =
        RedisQuoteCache.load key_pfx rstore now region 0
    ∧ (∀ version t recs,
        store (normalizeRegion region) =
          some (StoredPayload.valid version (TimestampRaw.parsed t) recs) →
        now - t > 0 →
          QuoteCache.load store now region ttl_minutes = Except.ok none) := by
  have hmax : max ttl_minutes (0 : Int) = 0 := max_eq_right (le_of_lt httl)
  refine ⟨?_, ?_, ?_⟩
  · unfold QuoteCache.load
    rw [hmax, max_self]
  · unfold RedisQuoteCache.load
    rw [hmax, max_self]
  · intro version t recs hstore hage
    unfold QuoteCache.load
    rw [hstore]
    by_cases hv : version = some 1
    · have hcond : now - t > 60 * max ttl_minutes 0 := by
        rw [hmax]
        omega
      simp [hv, hcond]
    · simp [hv]

/-- Witness for C10 at a concrete store, `now = 5`, ttl = -5. -/
theorem c10_negative_ttl_clamped_witness :
    QuoteCache.load c7Store 5 "argentina" (-5) = QuoteCache.load c7Store 5 "argentina" 0
    ∧ RedisQuoteCache.load "pfx" (fun _ => RedisReply.noValue) 5 "argentina" (-5) =
        RedisQuoteCache.load "pfx" (fun _ => RedisReply.noValue) 5 "argentina" 0
    ∧ (∀ version t recs,
        c7Store (normalizeRegion "argentina") =
          some (StoredPayload.valid version (TimestampRaw.parsed t) recs) →
        (5 : Int) - t > 0 →
          QuoteCache.load c7Store 5 "argentina" (-5) = Except.ok none) :=
  c10_negative_ttl_clamped c7Store "pfx" (fun _ => RedisReply.noValue) 5 "argentina" (-5)
    (by omega)

/-- C5: evidence for the cache-hit claim and the configuration bug blocking
it.  `run_crawl_job` passes `cache_backend` and `cache_dir` keywords that the
`CrawlerConfig` dataclass in `config.py` does not declare, so every call —
including the repository's own cache-hit test input — raises `TypeError`
before the cache is consulted.  The remainder of the function
(`runCrawlJobBody`) does satisfy the claim at that input: it returns
`source="cache"` having written the cached records to the CSV sink, with no
web driver and no `YahooFinanceClient` (Page Source) event in its trace. -/
theorem c5_cache_hit_no_page_source :
    ("cache_backend" ∈ runCrawlJobConfigKwargs ∧ "cache_backend" ∉ crawlerConfigFields
      ∧ "cache_dir" ∈ runCrawlJobConfigKwargs ∧ "cache_dir" ∉ crawlerConfigFields
      ∧ (run_crawl_job c5Params c5Env).1 =
          Except.error "TypeError: CrawlerConfig() got an unexpected keyword argument")
    ∧ (runCrawlJobBody c5Params c5Env =
        (Except.ok { output_path := "result.csv", total_records := 1, source := "cache" },
         [JobEvent.builtLocalCache ".cache/yahoo_crawler",
          JobEvent.cacheLoad CacheKind.localKind "Argentina" 30,
          JobEvent.csvWrite "result.csv" [wAmx]])
      ∧ JobEvent.builtDriver ∉ (runCrawlJobBody c5Params c5Env).2
      ∧ JobEvent.builtClient ∉ (runCrawlJobBody c5Params c5Env).2) := by
  refine ⟨⟨by decide, by decide, by decide, by decide, by decide⟩,
    by decide, by decide, by decide⟩

/-- C6: evidence for the invalid-backend claim.  On the repository's own test
input (`use_cache=True`, backend "invalid") `run_crawl_job` raises the
config-construction `TypeError` — not the specified backend `ValueError` —
though still before any cache or Page Source object is built (empty trace).
The post-construction body does raise the backend `ValueError` with an empty
trace when caching is enabled; but with `use_cache=False` the same invalid
backend is silently accepted (`_build_cache` returns early) and the job runs
the live path, so the claim's "including when use_cache is false" does not
hold of the intended logic either. -/
theorem c6_invalid_backend_fail_fast :
    ((run_crawl_job c6Params c6Env).1 =
        Except.error "TypeError: CrawlerConfig() got an unexpected keyword argument"
      ∧ (run_crawl_job c6Params c6Env).2 = [])
    ∧ runCrawlJobBody c6Params c6Env =
        (Except.error "cache_backend invalido: 'invalid'. Use 'local' ou 'redis'.", [])
    ∧ ((runCrawlJobBody c6ParamsNoCache c6Env).1 =
        Except.ok { output_path := "result.csv", total_records := 1, source := "live" }
      ∧ JobEvent.builtClient ∈ (runCrawlJobBody c6ParamsNoCache c6Env).2) := by
  refine ⟨⟨by decide, by decide⟩, by decide, by decide, by decide⟩

/-- C9 counterexample: when `apply_region_filter` fails because the region
checkbox is not found, the error propagates out of `crawl` — the crawl does
not proceed with the currently rendered page, falsifying the claim for
arbitrary filter failures. -/
theorem c9_counterexample_filter_error_propagates :
    ScreenerCrawler.crawl c9EnvFail "Argentina" c2Parse (fun _ => ("page", false)) none 5 =
      Except.error "Region not found" := by
  decide

/-- C9 amended: only the table-settle wait inside `apply_region_filter` is
downgraded to a warning: whether or not the table visibly settles
(`tableSettles` arbitrary), `crawl` proceeds with the rendered pages and
returns the loop's result, provided the region is non-blank and the other
filter interactions succeed.  Failures that make `apply_region_filter` raise
(blank region, menu timeout, region not found, button-text timeout)
propagate out of `crawl`. -/
theorem c9_settle_timeout_not_fatal (env : FilterEnv) (region : String)
    (parse : String → List EquityQuote) (source : Nat → String × Bool)
    (maxPages : Option Int) (fuel : Nat) (b : Bool)
    (hr : pyStrip region ≠ "")
    (hm : env.menuOpens = true) (hf : env.regionFound = true)
    (hb : env.buttonTextUpdates = true) :
    ScreenerCrawler.crawl { env with tableSettles := b } region parse source maxPages fuel =
      Except.ok ((crawlLoop parse source maxPages fuel initState).map
        (fun st => crawlRecords st.bySymbol)) := by
  unfold ScreenerCrawler.crawl applyRegionFilter
  rw [if_neg hr]
  simp [hm, hf, hb]

/-- Witness for the amended C9: all interactions succeed except the settle
wait, which times out; the crawl still returns the loop's records. -/
theorem c9_settle_timeout_not_fatal_witness :
    ScreenerCrawler.crawl { c9EnvOk with tableSettles := false } "Argentina" c2Parse
        (fun _ => ("page", false)) none 5 =
      Except.ok ((crawlLoop c2Parse (fun _ => ("page", false)) none 5 initState).map
        (fun st => crawlRecords st.bySymbol)) :=
  c9_settle_timeout_not_fatal c9EnvOk "Argentina" c2Parse (fun _ => ("page", false))
    none 5 false (by decide) rfl rfl rfl
